import Mathlib

/-!
Shallow embedding of `internal/certificate.go` (x509-certificate-exporter).

The Go file extracts X.509 certificates from three kinds of sources: plain
PEM files, structured YAML documents queried through the external `yq`
binary, and Kubernetes secret objects.  This development embeds every
function of `internal/certificate.go` as an executable Lean definition and
proves the behavioural properties of the specification against them.

Modelling choices:
* Go strings and byte slices carrying text are `List Char` (`Str`).
* A raw byte buffer handed to the PEM decoder is viewed through its PEM
  structure (`Buffer = List Chunk`): maximal runs of bytes that are not part
  of any well-formed PEM block are `Chunk.junk` chunks, and every
  well-formed PEM block is a `Chunk.block` carrying its DER payload.
  `pemDecode` below models the documented behaviour of the Go
  function `encoding/pem.Decode` on this view: it skips any non-PEM bytes before the
  next well-formed block and returns the payload of that block with the rest of
  the buffer, or `none` when no block remains.
* The external effects used by the Go code — the `yq` subprocess, the
  filesystem, `base64.StdEncoding.Decode` and `x509.ParseCertificate` —
  are fields of an environment record `Env`; the embedded functions thread
  it explicitly.  Each field mirrors the exact shape of the Go call,
  including its error result, so that any decision of the code to discard an
  error is visible in the embedding.
* Go `error` values are `Str` messages; fallible functions return
  `Except Str α`.  Go enumerations declared as `int` constants
  (`certificateFormat`, `YAMLCertFormat`) are `Int` with the same values,
  since the Go `switch`/`if` chains have no default case and their
  behaviour on out-of-range tags is part of what is verified.
-/

namespace CertExporter

/-- Go strings (and byte slices that the code treats as text) are lists of
characters. -/
abbrev Str := List Char

/-- A DER payload: the decoded bytes of one PEM block. -/
abbrev DER := List Nat

/-- A byte buffer viewed through its PEM structure: `junk` chunks are
maximal runs of bytes that belong to no well-formed PEM certificate block
(leading garbage, separators between blocks, trailing padding such as NUL
bytes); `block` chunks are well-formed PEM blocks carrying their DER
payload. -/
inductive Chunk where
  | junk : List Nat → Chunk
  | block : DER → Chunk
deriving DecidableEq, Repr

/-- A raw byte buffer, as the PEM decoder sees it. -/
abbrev Buffer := List Chunk

/-- A parsed `x509.Certificate`, abstracted to the DER bytes it was parsed
from. -/
structure X509Cert where
  der : DER
deriving DecidableEq, Repr

/-- Models `encoding/pem.Decode` on the chunk view of a buffer: skip bytes
that are not part of a well-formed PEM block, return the DER payload of the first
block together with the remainder of the buffer after that block, or
`none` when the buffer holds no further block. -/
def pemDecode : Buffer → Option (DER × Buffer)
  | [] => none
  | Chunk.junk _ :: rest => pemDecode rest
  | Chunk.block der :: rest => some (der, rest)

/-- The fixed text the Go `parsePEM` puts in front of an `x509.ParseCertificate`
error: `fmt.Errorf("tried to parse malformed x509 data, %s", err.Error())`. -/
def malformedMsgHead : Str := "tried to parse malformed x509 data, ".toList

/-- Embeds `parsePEM` (certificate.go, lines 194–213): loop `pem.Decode` over the
buffer; stop successfully when no block is found; parse the DER payload of each
block with `x509.ParseCertificate` (the oracle `parseCert`); a parse
failure aborts the whole call with the wrapped error and no certificates
(the Go function returns `nil, err`); otherwise append the certificate and
continue on the rest of the buffer.  The recursion is written structurally
on the chunk list; `parsePEM_pemDecode` below proves it satisfies the Go
defining equation of the loop in terms of `pemDecode`. -/
def parsePEM (parseCert : DER → Except Str X509Cert) : Buffer → Except Str (List X509Cert)
  | [] => Except.ok []
  | Chunk.junk _ :: rest => parsePEM parseCert rest
  | Chunk.block der :: rest =>
    match parseCert der with
    | Except.error e => Except.error (malformedMsgHead ++ e)
    | Except.ok cert => (parsePEM parseCert rest).map (fun certs => cert :: certs)

/-- The DER payloads of the well-formed PEM blocks of a buffer, in order of
appearance. -/
def blocksOf (data : Buffer) : List DER :=
  data.filterMap (fun c => match c with
    | Chunk.junk _ => none
    | Chunk.block der => some der)

/-- Embeds `YAMLCertFormat` (certificate.go, line 26): declared as a Go `int`. -/
abbrev YAMLCertFormat := Int

/-- Embeds `YAMLCertFormatFile` (certificate.go, line 30): `iota` value 0. -/
def YAMLCertFormatFile : YAMLCertFormat := 0

/-- Embeds `YAMLCertFormatBase64` (certificate.go, line 31): `iota` value 1. -/
def YAMLCertFormatBase64 : YAMLCertFormat := 1

/-- Embeds `YAMLCertRef` (certificate.go, lines 19–23): one path-expression pair —
where to find certificate material, where to find the matching identity
labels, and how the certificate bytes are encoded there. -/
structure YAMLCertRef where
  CertMatchExpr : Str
  IDMatchExpr : Str
  Format : YAMLCertFormat
deriving DecidableEq, Repr

/-- Embeds `DefaultYamlPaths` (certificate.go, lines 35–56): the pre-written
path-expression pairs for kubeconfig-style files. -/
def DefaultYamlPaths : List YAMLCertRef :=
  [ { CertMatchExpr := "clusters.[*].cluster.certificate-authority-data".toList
    , IDMatchExpr := "clusters.[*].name".toList
    , Format := YAMLCertFormatBase64 }
  , { CertMatchExpr := "clusters.[*].cluster.certificate-authority".toList
    , IDMatchExpr := "clusters.[*].name".toList
    , Format := YAMLCertFormatFile }
  , { CertMatchExpr := "users.[*].user.client-certificate-data".toList
    , IDMatchExpr := "users.[*].name".toList
    , Format := YAMLCertFormatBase64 }
  , { CertMatchExpr := "users.[*].user.client-certificate".toList
    , IDMatchExpr := "users.[*].name".toList
    , Format := YAMLCertFormatFile } ]

/-- Embeds `parsedCertificate` (certificate.go, lines 68–72): one decoded
certificate plus the identity label and path-expression that located it
(both empty — Go zero value `""` — outside the YAML reader). -/
structure parsedCertificate where
  cert : X509Cert
  userID : Str
  yqMatchExpr : Str
deriving DecidableEq, Repr

/-- A `v1.Secret` as the code uses it: a name (`GetName()`) and the `Data`
mapping from string keys to byte payloads (payloads are buffers in the
chunk view, since the code only ever hands them to `parsePEM`). -/
structure KubeSecret where
  name : Str
  data : List (Str × Buffer)
deriving DecidableEq, Repr

/-- Go map lookup `secret.Data[key]`: the value at `key`, if present. -/
def KubeSecret.lookup (secret : KubeSecret) (key : Str) : Option Buffer :=
  (secret.data.find? (fun p => p.1 = key)).map (fun p => p.2)

/-- The external effects of `internal/certificate.go`, one field per call
shape in the Go code.  Every field returns exactly what the Go call
returns, error included, so the embedding shows which results the code
uses and which it discards. -/
structure Env where
  /-- Models `exec.Command("yq", "r", filePath, expr).CombinedOutput()`
  (line 125): combined stdout+stderr text, and the error when the
  invocation failed. -/
  yqCombined : Str → Str → Str × Option Str
  /-- Models `exec.Command("yq", "r", filePath, expr).Output()` (line 150):
  captured stdout text, and the error when the invocation failed. -/
  yqOutput : Str → Str → Str × Option Str
  /-- Models `ioutil.ReadFile(path)` (lines 103 and 139): the contents of the file as a
  buffer, or the I/O error. -/
  readFile : Str → Except Str Buffer
  /-- Lines 135–136: a destination of `base64.StdEncoding.DecodedLen`
  bytes is allocated and `base64.StdEncoding.Decode` fills it.  The field
  returns the whole destination buffer after the call (decoded bytes
  followed by any zero padding left when decoding stopped early) together
  with the error `Decode` returned. -/
  b64decode : Str → Buffer × Option Str
  /-- Models `x509.ParseCertificate(der)` (line 203). -/
  parseCert : DER → Except Str X509Cert

/-- Models `strings.Split(s, "\n")`. -/
def splitOnNewline : Str → List Str
  | [] => [[]]
  | c :: rest =>
    match splitOnNewline rest with
    | [] => [[]]
    | line :: more => if c = '\n' then [] :: line :: more else (c :: line) :: more

/-- Models `strings.TrimRight(s, "\n")`: drop every trailing newline character. -/
def trimRightNewline (s : Str) : Str :=
  (s.reverse.dropWhile (fun c => c = '\n')).reverse

/-- Models the Go `path.Join(a, b)` for the arguments the code builds (paths
without `.`/`..` segments or repeated separators, where `path.Clean` is the
identity): empty elements are skipped, the rest joined with a slash. -/
def pathJoin (a b : Str) : Str :=
  if a = [] then b else if b = [] then a else a ++ '/' :: b

/-- Models the Go `filepath.Dir(p)` on Unix paths without `.`/`..` segments:
everything up to the last separator, with trailing separators removed;
`"."` when `p` has no separator, `"/"` when only the root remains. -/
def filepathDir (p : Str) : Str :=
  let pre := (p.reverse.dropWhile (fun c => c ≠ '/')).reverse
  let trimmed := (pre.reverse.dropWhile (fun c => c = '/')).reverse
  if trimmed = [] then (if pre = [] then ['.'] else ['/']) else trimmed

/-- Decimal rendering of a count, as the `%d` verb of `fmt` prints it. -/
def natStr (n : Nat) : Str := (Nat.repr n).toList

/-- Embeds `readAndParsePEMFile` (certificate.go, lines 102–119): read the file,
hand its contents to `parsePEM`, and wrap each certificate in a record
whose `userID` and `yqMatchExpr` are the Go zero value `""`.  Both the
read error and the parse error abort the call with no records. -/
def readAndParsePEMFile (env : Env) (path : Str) : Except Str (List parsedCertificate) :=
  match env.readFile path with
  | Except.error e => Except.error e
  | Except.ok contents =>
    match parsePEM env.parseCert contents with
    | Except.error e => Except.error e
    | Except.ok certs =>
      Except.ok (certs.map (fun cert => { cert := cert, userID := [], yqMatchExpr := [] }))

/-- The error of line 158:
`fmt.Errorf("failed to parse some labels in %s (got %d IDs but %d certs for \"%s\")", filePath, len(userIDs), len(certs), exprs.IDMatchExpr)`. -/
def mismatchMsg (filePath : Str) (nIDs nCerts : Nat) (idExpr : Str) : Str :=
  "failed to parse some labels in ".toList ++ filePath ++
    " (got ".toList ++ natStr nIDs ++ " IDs but ".toList ++ natStr nCerts ++
    " certs for \"".toList ++ idExpr ++ "\")".toList

/-- Lines 150–156: run `yq` on the identity expression with `.Output()`,
discard its error (the Go code binds it to `_`), split the captured stdout
on newlines and keep the non-empty lines. -/
def yamlUserIDs (env : Env) (filePath : Str) (exprs : YAMLCertRef) : List Str :=
  (splitOnNewline (env.yqOutput filePath exprs.IDMatchExpr).1).filter (fun u => !u.isEmpty)

/-- Lines 133–143: obtain the certificate bytes for one pair from the raw
`yq` match.  `YAMLCertFormatBase64` takes the base64 destination buffer and
discards the `Decode` error (both return values are dropped in the Go
code); `YAMLCertFormatFile` joins the match onto the directory of the document,
trims trailing newlines and reads that file, failing on an I/O error.  Any
other tag leaves `decodedCerts` as Go `nil`, the empty buffer. -/
def yamlDecodeStep (env : Env) (filePath : Str) (exprs : YAMLCertRef) (rawCerts : Str) :
    Except Str Buffer :=
  if exprs.Format = YAMLCertFormatBase64 then
    Except.ok (env.b64decode rawCerts).1
  else if exprs.Format = YAMLCertFormatFile then
    env.readFile (trimRightNewline (pathJoin (filepathDir filePath) rawCerts))
  else
    Except.ok []

/-- Lines 145–167: parse the decoded bytes, fetch and filter the identity
labels, fail when the label count differs from the certificate count, and
otherwise emit one record per certificate, paired positionally with its
label and tagged with the certificate expression. -/
def yamlCorrelate (env : Env) (filePath : Str) (exprs : YAMLCertRef) (decodedCerts : Buffer) :
    Except Str (List parsedCertificate) :=
  match parsePEM env.parseCert decodedCerts with
  | Except.error e => Except.error e
  | Except.ok certs =>
    let userIDs := yamlUserIDs env filePath exprs
    if userIDs.length = certs.length then
      Except.ok ((certs.zip userIDs).map (fun p =>
        { cert := p.1, userID := p.2, yqMatchExpr := exprs.CertMatchExpr }))
    else
      Except.error (mismatchMsg filePath userIDs.length certs.length exprs.IDMatchExpr)

/-- Lines 124–167, the body of the `for _, exprs := range yamlPaths` loop
for one pair: run `yq` on the certificate expression with
`.CombinedOutput()`; a failed invocation aborts with
`err.Error() + " | stderr: " + string(rawCerts)`; an empty match skips the
pair (`continue`); otherwise decode and correlate. -/
def yamlStep (env : Env) (filePath : Str) (exprs : YAMLCertRef) :
    Except Str (List parsedCertificate) :=
  let res := env.yqCombined filePath exprs.CertMatchExpr
  match res.2 with
  | some e => Except.error (e ++ " | stderr: ".toList ++ res.1)
  | none =>
    if res.1.length = 0 then Except.ok []
    else
      match yamlDecodeStep env filePath exprs res.1 with
      | Except.error e => Except.error e
      | Except.ok decodedCerts => yamlCorrelate env filePath exprs decodedCerts

/-- Embeds `readAndParseYAMLFile` (certificate.go, lines 121–171): process the
path-expression pairs in declaration order, appending the records of each pair
to the output; the first failing pair aborts the whole read with its error
(the Go function returns `nil, err`, dropping records accumulated so
far). -/
def readAndParseYAMLFile (env : Env) (filePath : Str) :
    List YAMLCertRef → Except Str (List parsedCertificate)
  | [] => Except.ok []
  | exprs :: rest =>
    match yamlStep env filePath exprs with
    | Except.error e => Except.error e
    | Except.ok recs =>
      match readAndParseYAMLFile env filePath rest with
      | Except.error e => Except.error e
      | Except.ok more => Except.ok (recs ++ more)

/-- Embeds `readAndParseKubeSecret` (certificate.go, lines 173–192): require the
`"tls.crt"` key in the data of the secret, failing with
`secret "<name>" has no key "tls.crt"` when absent; otherwise hand its
bytes to `parsePEM` and wrap each certificate in a record with empty
`userID` and `yqMatchExpr`.  The Go parameter `path` is unused. -/
def readAndParseKubeSecret (env : Env) (_path : Str) (secret : KubeSecret) :
    Except Str (List parsedCertificate) :=
  match secret.lookup ("tls.crt".toList) with
  | none =>
    Except.error ("secret \"".toList ++ secret.name ++ "\" has no key \"tls.crt\"".toList)
  | some bytes =>
    match parsePEM env.parseCert bytes with
    | Except.error e => Except.error e
    | Except.ok certs =>
      Except.ok (certs.map (fun cert => { cert := cert, userID := [], yqMatchExpr := [] }))

/-- Embeds `certificateFormat` (certificate.go, line 79): declared as a Go `int`. -/
abbrev certificateFormat := Int

/-- Embeds `certificateFormatPEM` (line 82): `iota` value 0. -/
def certificateFormatPEM : certificateFormat := 0

/-- Embeds `certificateFormatYAML` (line 83): `iota` value 1. -/
def certificateFormatYAML : certificateFormat := 1

/-- Embeds `certificateFormatKubeSecret` (line 84): `iota` value 2. -/
def certificateFormatKubeSecret : certificateFormat := 2

/-- Embeds `certificateRef` (certificate.go, lines 58–66). -/
structure certificateRef where
  path : Str
  format : certificateFormat
  certificates : List parsedCertificate
  userIDs : List Str
  yamlPaths : List YAMLCertRef
  kubeSecret : KubeSecret
deriving Repr

/-- Embeds `certificateRef.parse` (certificate.go, lines 87–100): dispatch on the
format tag.  For a recognised tag the result of the matching reader is assigned
to `certificates` (Go assigns the returned slice even on failure, so an
error leaves the field `nil`, the empty list) and its error is returned.
The `switch` has no `default` case: any other tag assigns nothing and
returns the `nil` error.  The Go method mutates its receiver and returns
`error`; here it returns the updated record with the optional error. -/
def certificateRef.parse (env : Env) (cert : certificateRef) :
    certificateRef × Option Str :=
  if cert.format = certificateFormatPEM then
    match readAndParsePEMFile env cert.path with
    | Except.ok cs => ({ cert with certificates := cs }, none)
    | Except.error e => ({ cert with certificates := [] }, some e)
  else if cert.format = certificateFormatYAML then
    match readAndParseYAMLFile env cert.path cert.yamlPaths with
    | Except.ok cs => ({ cert with certificates := cs }, none)
    | Except.error e => ({ cert with certificates := [] }, some e)
  else if cert.format = certificateFormatKubeSecret then
    match readAndParseKubeSecret env cert.path cert.kubeSecret with
    | Except.ok cs => ({ cert with certificates := cs }, none)
    | Except.error e => ({ cert with certificates := [] }, some e)
  else
    (cert, none)

/-- Reimplementation of `Except.isOk` as a local helper, to state "this call succeeded"
decidably. -/
def isOkE {ε α : Type} : Except ε α → Bool
  | Except.ok _ => true
  | Except.error _ => false

/-! Concrete fixtures used by the witnesses and counterexamples. -/

/-- A concrete document path used by the witness environments. -/
def fp0 : Str := "cfg/config".toList

/-- A concrete `x509.ParseCertificate` oracle: rejects the DER payload
`[9]`, accepts everything else. -/
def goodPC : DER → Except Str X509Cert :=
  fun d => if d = [9] then Except.error ("asn1: structure error".toList) else Except.ok ⟨d⟩

/-- A concrete environment in which every external call the witnesses
exercise succeeds (except where a fixture below deliberately fails). -/
def envOK : Env :=
  { yqCombined := fun _ q =>
      if q = "cexpr".toList then ("DATA".toList, none)
      else if q = "fexpr".toList then ("ca.crt\n".toList, none)
      else if q = "fbad".toList then ("missing.crt\n".toList, none)
      else if q = "cbad".toList then ("oops-output".toList, some ("exit status 1".toList))
      else ([], none)
  , yqOutput := fun _ q =>
      if q = "idexpr".toList then ("prod\n".toList, none) else ([], none)
  , readFile := fun p =>
      if p = "cfg/ca.crt".toList then Except.ok [Chunk.block [5]]
      else Except.error ("open missing.crt: no such file or directory".toList)
  , b64decode := fun s =>
      if s = "DATA".toList then ([Chunk.block [7]], none) else ([], none)
  , parseCert := goodPC }

/-- Like `envOK` except that `base64.StdEncoding.Decode` reports an error
while still having written a decodable buffer. -/
def envB64Err : Env :=
  { envOK with b64decode := fun s =>
      if s = "DATA".toList then
        ([Chunk.block [7]], some ("illegal base64 data at input byte 4".toList))
      else ([], none) }

/-- Like `envOK` except that the `yq` invocation for the identity
expression fails (nonzero exit) while still emitting the labels on
stdout. -/
def envIDErr : Env :=
  { envOK with yqOutput := fun _ q =>
      if q = "idexpr".toList then ("prod\n".toList, some ("exit status 1".toList))
      else ([], some ("exit status 1".toList)) }

/-- Pair with inline-base64 encoding whose expressions match in `envOK`. -/
def pairB64 : YAMLCertRef :=
  { CertMatchExpr := "cexpr".toList, IDMatchExpr := "idexpr".toList
  , Format := YAMLCertFormatBase64 }

/-- Pair with file-reference encoding whose referenced file exists. -/
def pairFile : YAMLCertRef :=
  { CertMatchExpr := "fexpr".toList, IDMatchExpr := "idexpr".toList
  , Format := YAMLCertFormatFile }

/-- Pair with file-reference encoding whose referenced file is missing. -/
def pairFileBad : YAMLCertRef :=
  { CertMatchExpr := "fbad".toList, IDMatchExpr := "idexpr".toList
  , Format := YAMLCertFormatFile }

/-- Pair whose certificate-expression `yq` invocation fails. -/
def pairCertEvalBad : YAMLCertRef :=
  { CertMatchExpr := "cbad".toList, IDMatchExpr := "idexpr".toList
  , Format := YAMLCertFormatBase64 }

/-- Pair whose identity expression matches no labels while its certificate
expression yields one certificate: a correlation count mismatch. -/
def pairMismatch : YAMLCertRef :=
  { CertMatchExpr := "cexpr".toList, IDMatchExpr := "idnone".toList
  , Format := YAMLCertFormatBase64 }

/-- The record `envOK` produces for `pairB64`. -/
def recB64 : parsedCertificate :=
  { cert := ⟨[7]⟩, userID := "prod".toList, yqMatchExpr := "cexpr".toList }

/-- The record `envOK` produces for `pairFile`. -/
def recFile : parsedCertificate :=
  { cert := ⟨[5]⟩, userID := "prod".toList, yqMatchExpr := "fexpr".toList }

/-- A secret without the `"tls.crt"` key. -/
def secretNo : KubeSecret := { name := "db-tls".toList, data := [("ca.crt".toList, [])] }

/-- A secret with the `"tls.crt"` key holding one PEM block. -/
def secretYes : KubeSecret :=
  { name := "web".toList, data := [("tls.crt".toList, [Chunk.block [3]])] }

/-- A certificate reference whose format tag is none of the three declared
constants. -/
def refUnknown : certificateRef :=
  { path := "p".toList, format := 3, certificates := [recB64], userIDs := []
  , yamlPaths := [], kubeSecret := secretNo }

/-!
Theorems.

First the shared lemmas about the embedded functions, then one theorem per
claim (with its witness or counterexample).
-/

theorem parsePEM_pemDecode (parseCert : DER → Except Str X509Cert) (data : Buffer) :
    parsePEM parseCert data =
      match pemDecode data with
      | none => Except.ok []
      | some (der, rest) =>
        match parseCert der with
        | Except.error e => Except.error (malformedMsgHead ++ e)
        | Except.ok cert => (parsePEM parseCert rest).map (fun certs => cert :: certs) := by
  induction data with
  | nil => rfl
  | cons c rest ih =>
    cases c with
    | junk bytes => simpa [parsePEM, pemDecode] using ih
    | block der => simp [parsePEM, pemDecode]

@[simp] theorem blocksOf_nil : blocksOf [] = [] := rfl

@[simp] theorem blocksOf_junk (bytes : List Nat) (rest : Buffer) :
    blocksOf (Chunk.junk bytes :: rest) = blocksOf rest := by
  simp [blocksOf, List.filterMap_cons]

@[simp] theorem blocksOf_block (der : DER) (rest : Buffer) :
    blocksOf (Chunk.block der :: rest) = der :: blocksOf rest := by
  simp [blocksOf, List.filterMap_cons]

/-- C2: if any PEM block located in the buffer has a DER payload that
`x509.ParseCertificate` rejects, `parsePEM` returns an error whose message
identifies the data as malformed x509 material.  The result type carries no
certificate list alongside the error, matching the Go `return nil, err`:
no partial list of previously decoded certificates is returned. -/
theorem C2_malformed_block_fatal (pc : DER → Except Str X509Cert) (buf : Buffer)
    (h : ∃ d ∈ blocksOf buf, isOkE (pc d) = false) :
    ∃ msg, parsePEM pc buf = Except.error (malformedMsgHead ++ msg) := by
  induction buf with
  | nil => simp at h
  | cons c rest ih =>
    cases c with
    | junk bytes =>
      rw [blocksOf_junk] at h
      simpa [parsePEM] using ih h
    | block der =>
      rw [blocksOf_block] at h
      cases hp : pc der with
      | error e => exact ⟨e, by simp [parsePEM, hp]⟩
      | ok cert =>
        obtain ⟨d, hd, hbad⟩ := h
        rcases List.mem_cons.mp hd with heq | hmem
        · rw [heq, hp] at hbad
          simp [isOkE] at hbad
        · obtain ⟨msg, hmsg⟩ := ih ⟨d, hmem, hbad⟩
          exact ⟨msg, by simp [parsePEM, hp, hmsg, Except.map]⟩

/-- Witness for C2: a two-block buffer whose second block has the bad DER
payload `[9]` makes `parsePEM` fail with the malformed-data message. -/
theorem C2_malformed_block_fatal_witness :
    ∃ msg, parsePEM goodPC [Chunk.block [1], Chunk.block [9]] =
      Except.error (malformedMsgHead ++ msg) :=
  C2_malformed_block_fatal goodPC [Chunk.block [1], Chunk.block [9]]
    ⟨[9], by decide, by decide⟩

/-- C3: a buffer that is exactly a concatenation of well-formed PEM
certificate blocks (each DER payload accepted by `x509.ParseCertificate`,
related positionally to its certificate by `Forall₂`) decodes successfully
to exactly one certificate per block, in order of appearance. -/
theorem C3_k_blocks_decode_in_order (pc : DER → Except Str X509Cert)
    {ders : List DER} {cs : List X509Cert}
    (h : List.Forall₂ (fun d c => pc d = Except.ok c) ders cs) :
    parsePEM pc (ders.map Chunk.block) = Except.ok cs ∧ cs.length = ders.length := by
  induction h with
  | nil => exact ⟨rfl, rfl⟩
  | cons hdc htail ih =>
    refine ⟨?_, by simp [ih.2]⟩
    simp [parsePEM, hdc, ih.1, Except.map]

/-- Witness for C3: the empty buffer (K = 0) decodes to the empty list with
no error, and a two-block buffer (K = 2) decodes to its two certificates in
order. -/
theorem C3_k_blocks_decode_in_order_witness :
    parsePEM goodPC (([] : List DER).map Chunk.block) = Except.ok [] ∧
      parsePEM goodPC ([[1], [2]].map Chunk.block) = Except.ok [⟨[1]⟩, ⟨[2]⟩] :=
  ⟨(C3_k_blocks_decode_in_order goodPC List.Forall₂.nil).1,
    (C3_k_blocks_decode_in_order goodPC
      (List.Forall₂.cons (show goodPC [1] = Except.ok ⟨[1]⟩ from rfl)
        (List.Forall₂.cons (show goodPC [2] = Except.ok ⟨[2]⟩ from rfl)
          List.Forall₂.nil))).1⟩

/-- C10: `parsePEM` depends only on the well-formed PEM blocks of the
buffer; bytes outside any block — leading junk, bytes between blocks,
trailing bytes such as NUL padding — are silently skipped by the
`pem.Decode` loop and contribute neither certificates nor errors.  (The
junk-skipping itself is the behaviour of `encoding/pem.Decode`, modelled by
`pemDecode`; `parsePEM` inherits it by looping that call.) -/
theorem C10_junk_bytes_ignored (pc : DER → Except Str X509Cert) (buf : Buffer) :
    parsePEM pc buf = parsePEM pc ((blocksOf buf).map Chunk.block) := by
  induction buf with
  | nil => rfl
  | cons c rest ih =>
    cases c with
    | junk bytes => simpa [parsePEM] using ih
    | block der =>
      cases hp : pc der with
      | error e => simp [parsePEM, hp]
      | ok cert =>
        rw [blocksOf_block, List.map_cons]
        simp only [parsePEM, hp]
        rw [ih]

/-- Successful reads compose: processing `p1 ++ p2` appends the records of
`p2` after the records of `p1`. -/
theorem readYAML_ok_append (env : Env) (fp : Str) :
    ∀ (p1 p2 : List YAMLCertRef) (r1 r2 : List parsedCertificate),
      readAndParseYAMLFile env fp p1 = Except.ok r1 →
      readAndParseYAMLFile env fp p2 = Except.ok r2 →
      readAndParseYAMLFile env fp (p1 ++ p2) = Except.ok (r1 ++ r2) := by
  intro p1
  induction p1 with
  | nil =>
    intro p2 r1 r2 h1 h2
    simp only [readAndParseYAMLFile, Except.ok.injEq] at h1
    simpa [← h1] using h2
  | cons p rest ih =>
    intro p2 r1 r2 h1 h2
    simp only [readAndParseYAMLFile] at h1 ⊢
    cases hstep : yamlStep env fp p with
    | error e => rw [hstep] at h1; exact absurd h1 (by simp)
    | ok recs =>
      rw [hstep] at h1
      cases hrest : readAndParseYAMLFile env fp rest with
      | error e => rw [hrest] at h1; exact absurd h1 (by simp)
      | ok more =>
        rw [hrest] at h1
        simp only [Except.ok.injEq] at h1
        have h3 := ih p2 more r2 hrest h2
        simp only [List.append_eq]
        rw [h3]
        simp [← h1, List.append_assoc]

/-- A failing pair aborts the whole read with its error, no matter how many
pairs succeeded before it. -/
theorem readYAML_abort (env : Env) (fp : Str) :
    ∀ (pre : List YAMLCertRef) (exprs : YAMLCertRef) (post : List YAMLCertRef) (e : Str),
      yamlStep env fp exprs = Except.error e →
      isOkE (readAndParseYAMLFile env fp pre) = true →
      readAndParseYAMLFile env fp (pre ++ exprs :: post) = Except.error e := by
  intro pre
  induction pre with
  | nil =>
    intro exprs post e hstep _
    simp [readAndParseYAMLFile, hstep]
  | cons p rest ih =>
    intro exprs post e hstep hpre
    simp only [readAndParseYAMLFile] at hpre ⊢
    cases h1 : yamlStep env fp p with
    | error e1 => rw [h1] at hpre; simp [isOkE] at hpre
    | ok recs =>
      rw [h1] at hpre
      cases h2 : readAndParseYAMLFile env fp rest with
      | error e2 => rw [h2] at hpre; simp [isOkE] at hpre
      | ok more =>
        have h3 := ih exprs post e hstep (by simp [h2, isOkE])
        simp only [List.append_eq]
        rw [h3]

theorem dropWhile_append_of_ne_nil {α : Type} (p : α → Bool) (l m : List α)
    (h : l.dropWhile p ≠ []) : (l ++ m).dropWhile p = l.dropWhile p ++ m := by
  induction l with
  | nil => simp [List.dropWhile] at h
  | cons x xs ih =>
    cases hpx : p x with
    | true =>
      simp only [List.dropWhile_cons, hpx, if_true] at h
      simpa [List.dropWhile_cons, hpx] using ih h
    | false =>
      simp [List.dropWhile_cons, hpx]

theorem trimRightNewline_append (a b : Str) (hb : trimRightNewline b ≠ []) :
    trimRightNewline (a ++ b) = a ++ trimRightNewline b := by
  unfold trimRightNewline at *
  have hb2 : b.reverse.dropWhile (fun c => c = '\n') ≠ [] := by
    intro h
    exact hb (by rw [h]; rfl)
  rw [List.reverse_append, dropWhile_append_of_ne_nil _ _ _ hb2, List.reverse_append,
    List.reverse_reverse]

/-- Trimming trailing newlines commutes with joining onto a directory, as
long as the trimmed element is non-empty: the path the code reads
(`TrimRight` applied after `path.Join`) is the join of the directory with
the newline-trimmed matched text. -/
theorem trim_pathJoin (a b : Str) (hb : trimRightNewline b ≠ []) :
    trimRightNewline (pathJoin a b) = pathJoin a (trimRightNewline b) := by
  have hbne : b ≠ [] := by
    intro h
    exact hb (by rw [h]; rfl)
  unfold pathJoin
  by_cases ha : a = []
  · simp [ha]
  · rw [if_neg ha, if_neg hbne, if_neg ha, if_neg hb]
    rw [show a ++ '/' :: b = (a ++ ['/']) ++ b by simp]
    rw [trimRightNewline_append (a ++ ['/']) b hb]
    simp

/-- C1: when processing reaches a path-expression pair (all earlier pairs
succeeded), its certificate expression matched (non-empty `yq` output), the
bytes decoded and PEM-parsed into `certs`, but the number of non-empty
identity labels differs from the number of certificates, then the whole
read fails with the error of line 158 — which names the document path,
both counts and the identity expression — and, the result being
`Except.error`, no records are returned. -/
theorem C1_correlation_mismatch_fails_read (env : Env) (fp : Str) (exprs : YAMLCertRef)
    (rawCerts : Str) (buf : Buffer) (certs : List X509Cert)
    (pre post : List YAMLCertRef)
    (h1 : env.yqCombined fp exprs.CertMatchExpr = (rawCerts, none))
    (h2 : rawCerts ≠ [])
    (h3 : yamlDecodeStep env fp exprs rawCerts = Except.ok buf)
    (h4 : parsePEM env.parseCert buf = Except.ok certs)
    (h5 : (yamlUserIDs env fp exprs).length ≠ certs.length)
    (hpre : isOkE (readAndParseYAMLFile env fp pre) = true) :
    readAndParseYAMLFile env fp (pre ++ exprs :: post) =
      Except.error (mismatchMsg fp (yamlUserIDs env fp exprs).length certs.length
        exprs.IDMatchExpr) := by
  apply readYAML_abort env fp pre exprs post _ _ hpre
  have hlen : ¬ rawCerts.length = 0 := fun h => h2 (List.length_eq_zero.mp h)
  simp only [yamlStep, h1, if_neg hlen, h3]
  simp only [yamlCorrelate, h4, if_neg h5]

/-- Witness for C1: in `envOK`, `pairMismatch` yields one certificate but
zero non-empty identity labels; after the successful pair `pairB64` the
whole read fails with the count-mismatch error. -/
theorem C1_correlation_mismatch_fails_read_witness :
    readAndParseYAMLFile envOK fp0 ([pairB64] ++ pairMismatch :: []) =
      Except.error (mismatchMsg fp0 (yamlUserIDs envOK fp0 pairMismatch).length 1
        pairMismatch.IDMatchExpr) :=
  C1_correlation_mismatch_fails_read envOK fp0 pairMismatch ("DATA".toList)
    [Chunk.block [7]] [⟨[7]⟩] [pairB64] [] rfl (by decide) rfl rfl (by decide) rfl

/-- C4: records accumulate across pairs in declaration order — the read of
a concatenation of pair lists is the concatenation of their record lists,
in that order — and a failing pair aborts the whole read: whatever pairs
succeeded before it, the caller receives only the error (the `Except.error`
result carries no records). -/
theorem C4_accumulate_in_order_and_abort :
    (∀ (env : Env) (fp : Str) (p1 p2 : List YAMLCertRef) (r1 r2 : List parsedCertificate),
        readAndParseYAMLFile env fp p1 = Except.ok r1 →
        readAndParseYAMLFile env fp p2 = Except.ok r2 →
        readAndParseYAMLFile env fp (p1 ++ p2) = Except.ok (r1 ++ r2)) ∧
    (∀ (env : Env) (fp : Str) (pre : List YAMLCertRef) (exprs : YAMLCertRef)
        (post : List YAMLCertRef) (e : Str),
        yamlStep env fp exprs = Except.error e →
        isOkE (readAndParseYAMLFile env fp pre) = true →
        readAndParseYAMLFile env fp (pre ++ exprs :: post) = Except.error e) :=
  ⟨fun env fp => readYAML_ok_append env fp, fun env fp => readYAML_abort env fp⟩

/-- Witness for C4: in `envOK` the two successful pairs produce their
records in declaration order, and appending the failing pair
`pairFileBad` after a successful pair turns the whole read into its I/O
error. -/
theorem C4_accumulate_in_order_and_abort_witness :
    readAndParseYAMLFile envOK fp0 ([pairB64] ++ [pairFile]) =
      Except.ok ([recB64] ++ [recFile]) ∧
    readAndParseYAMLFile envOK fp0 ([pairB64] ++ pairFileBad :: []) =
      Except.error ("open missing.crt: no such file or directory".toList) :=
  ⟨C4_accumulate_in_order_and_abort.1 envOK fp0 [pairB64] [pairFile] [recB64] [recFile] rfl rfl,
    C4_accumulate_in_order_and_abort.2 envOK fp0 [pairB64] pairFileBad [] _ rfl rfl⟩

/-- C5: for a pair with `YAMLCertFormatFile` encoding and a non-empty
match, the read target is `TrimRight(path.Join(filepath.Dir(docPath),
matchedText), "\n")` — the matched text resolved against the directory of the
document itself, trailing newlines trimmed (never the working directory: the
joined path starts with `filepath.Dir docPath`).  An unreadable file fails
the pair with the I/O error verbatim; a readable one hands its contents to
the PEM-parse/correlate step.  The last conjunct shows that join-then-trim (as the
code does it) equals trim-then-join (as the claim words it) whenever the trimmed
match is non-empty. -/
theorem C5_file_reference_resolution (env : Env) (fp : Str) (exprs : YAMLCertRef)
    (rawCerts : Str)
    (hfmt : exprs.Format = YAMLCertFormatFile)
    (h1 : env.yqCombined fp exprs.CertMatchExpr = (rawCerts, none))
    (h2 : rawCerts ≠ []) :
    (∀ e, env.readFile (trimRightNewline (pathJoin (filepathDir fp) rawCerts)) =
        Except.error e → yamlStep env fp exprs = Except.error e) ∧
    (∀ contents, env.readFile (trimRightNewline (pathJoin (filepathDir fp) rawCerts)) =
        Except.ok contents → yamlStep env fp exprs = yamlCorrelate env fp exprs contents) ∧
    (trimRightNewline rawCerts ≠ [] →
      trimRightNewline (pathJoin (filepathDir fp) rawCerts) =
        pathJoin (filepathDir fp) (trimRightNewline rawCerts)) := by
  have hlen : ¬ rawCerts.length = 0 := fun h => h2 (List.length_eq_zero.mp h)
  have hne : exprs.Format ≠ YAMLCertFormatBase64 := by
    rw [hfmt]; decide
  refine ⟨?_, ?_, fun hb => trim_pathJoin _ _ hb⟩
  · intro e he
    simp only [yamlStep, h1, if_neg hlen, yamlDecodeStep, if_neg hne, if_pos hfmt, he]
  · intro contents hc
    simp only [yamlStep, h1, if_neg hlen, yamlDecodeStep, if_neg hne, if_pos hfmt, hc]

/-- Witness for C5: in `envOK`, the match `"ca.crt\n"` in document
`"cfg/config"` resolves to `"cfg/ca.crt"` whose contents are correlated;
the match `"missing.crt\n"` resolves to an unreadable file and fails the
pair with the filesystem error; and join-then-trim equals trim-then-join
on the concrete match. -/
theorem C5_file_reference_resolution_witness :
    yamlStep envOK fp0 pairFile = yamlCorrelate envOK fp0 pairFile [Chunk.block [5]] ∧
    yamlStep envOK fp0 pairFileBad =
      Except.error ("open missing.crt: no such file or directory".toList) ∧
    trimRightNewline (pathJoin (filepathDir fp0) ("ca.crt\n".toList)) =
      pathJoin (filepathDir fp0) (trimRightNewline ("ca.crt\n".toList)) :=
  ⟨(C5_file_reference_resolution envOK fp0 pairFile ("ca.crt\n".toList)
      rfl rfl (by decide)).2.1 [Chunk.block [5]] rfl,
    (C5_file_reference_resolution envOK fp0 pairFileBad ("missing.crt\n".toList)
      rfl rfl (by decide)).1 _ rfl,
    (C5_file_reference_resolution envOK fp0 pairFile ("ca.crt\n".toList)
      rfl rfl (by decide)).2.2 (by decide)⟩

/-- Counterexample to C6: in `envB64Err` the base64 decode of the matched
text reports an error, yet the read does not fail — it returns the record
decoded from the (partially) filled destination buffer.  The claim that a
base64 decode failure yields an error that fails the read is therefore
false: line 136 of the Go code discards both return values of
`base64.StdEncoding.Decode`. -/
theorem C6_counterexample_base64_error_ignored :
    (envB64Err.b64decode ("DATA".toList)).2 =
      some ("illegal base64 data at input byte 4".toList) ∧
    readAndParseYAMLFile envB64Err fp0 [pairB64] = Except.ok [recB64] :=
  ⟨rfl, rfl⟩

/-- C6 as amended: the base64 decode error is discarded.  The outcome of
the read is independent of the error component of the base64 oracle, and
for an inline-base64 pair with a non-empty match the outcome of the pair is
the PEM-parse/correlate step applied to the destination buffer of the decode,
whatever the decode error was. -/
theorem C6_amended_base64_error_discarded :
    (∀ (env : Env) (f2 : Str → Option Str) (fp : Str) (paths : List YAMLCertRef),
        readAndParseYAMLFile
          { env with b64decode := fun s => ((env.b64decode s).1, f2 s) } fp paths =
          readAndParseYAMLFile env fp paths) ∧
    (∀ (env : Env) (fp : Str) (exprs : YAMLCertRef) (rawCerts : Str),
        exprs.Format = YAMLCertFormatBase64 →
        env.yqCombined fp exprs.CertMatchExpr = (rawCerts, none) →
        rawCerts ≠ [] →
        yamlStep env fp exprs =
          yamlCorrelate env fp exprs (env.b64decode rawCerts).1) := by
  constructor
  · intro env f2 fp paths
    induction paths with
    | nil => rfl
    | cons p rest ih =>
      have hstep : yamlStep { env with b64decode := fun s => ((env.b64decode s).1, f2 s) } fp p =
          yamlStep env fp p := rfl
      simp only [readAndParseYAMLFile, hstep, ih]
  · intro env fp exprs rawCerts hfmt h1 h2
    have hlen : ¬ rawCerts.length = 0 := fun h => h2 (List.length_eq_zero.mp h)
    simp only [yamlStep, h1, if_neg hlen, yamlDecodeStep, if_pos hfmt]

/-- Witness for C6 (amended): replacing the base64 error by `none` leaves
the read of `envB64Err` unchanged, and the `pairB64` step is the correlate
step on the destination buffer of the decode. -/
theorem C6_amended_base64_error_discarded_witness :
    readAndParseYAMLFile
        { envB64Err with b64decode := fun s => ((envB64Err.b64decode s).1, none) } fp0 [pairB64] =
      readAndParseYAMLFile envB64Err fp0 [pairB64] ∧
    yamlStep envB64Err fp0 pairB64 =
      yamlCorrelate envB64Err fp0 pairB64 ((envB64Err.b64decode ("DATA".toList)).1) :=
  ⟨C6_amended_base64_error_discarded.1 envB64Err (fun _ => none) fp0 [pairB64],
    C6_amended_base64_error_discarded.2 envB64Err fp0 pairB64 ("DATA".toList)
      rfl rfl (by decide)⟩

/-- Counterexample to C7: in `envIDErr` the `yq` invocation for the
identity expression of `pairB64` fails, yet the read succeeds.  The claim
that an evaluator failure on the identity expression fails the whole read
is therefore false: line 150 of the Go code binds that error to `_`. -/
theorem C7_counterexample_id_eval_error_ignored :
    (envIDErr.yqOutput fp0 pairB64.IDMatchExpr).2 = some ("exit status 1".toList) ∧
    readAndParseYAMLFile envIDErr fp0 [pairB64] = Except.ok [recB64] :=
  ⟨rfl, rfl⟩

/-- C7 as amended: only a certificate-expression evaluator failure is
fatal, and it fails the whole read with the combined
stdout+stderr appended verbatim (`err.Error() + " | stderr: " + output`);
an identity-expression evaluator failure is ignored — the outcome of the
read is independent of that error component, only the captured stdout is
used. -/
theorem C7_amended_only_cert_eval_fatal :
    (∀ (env : Env) (fp : Str) (pre : List YAMLCertRef) (exprs : YAMLCertRef)
        (post : List YAMLCertRef) (out e : Str),
        env.yqCombined fp exprs.CertMatchExpr = (out, some e) →
        isOkE (readAndParseYAMLFile env fp pre) = true →
        readAndParseYAMLFile env fp (pre ++ exprs :: post) =
          Except.error (e ++ " | stderr: ".toList ++ out)) ∧
    (∀ (env : Env) (f2 : Str → Str → Option Str) (fp : Str) (paths : List YAMLCertRef),
        readAndParseYAMLFile
          { env with yqOutput := fun p q => ((env.yqOutput p q).1, f2 p q) } fp paths =
          readAndParseYAMLFile env fp paths) := by
  constructor
  · intro env fp pre exprs post out e h1 hpre
    apply readYAML_abort env fp pre exprs post _ _ hpre
    simp only [yamlStep, h1]
  · intro env f2 fp paths
    induction paths with
    | nil => rfl
    | cons p rest ih =>
      have hstep : yamlStep { env with yqOutput := fun p q => ((env.yqOutput p q).1, f2 p q) } fp p =
          yamlStep env fp p := rfl
      simp only [readAndParseYAMLFile, hstep, ih]

/-- Witness for C7 (amended): the failing certificate-expression pair
`pairCertEvalBad` turns the whole read into the verbatim-diagnostics
error, and erasing the error of the identity-expression evaluator leaves the
read of `envIDErr` unchanged. -/
theorem C7_amended_only_cert_eval_fatal_witness :
    readAndParseYAMLFile envOK fp0 ([] ++ pairCertEvalBad :: []) =
      Except.error ("exit status 1".toList ++ " | stderr: ".toList ++ "oops-output".toList) ∧
    readAndParseYAMLFile
        { envIDErr with yqOutput := fun p q => ((envIDErr.yqOutput p q).1, none) } fp0 [pairB64] =
      readAndParseYAMLFile envIDErr fp0 [pairB64] :=
  ⟨C7_amended_only_cert_eval_fatal.1 envOK fp0 [] pairCertEvalBad []
      ("oops-output".toList) ("exit status 1".toList) rfl rfl,
    C7_amended_only_cert_eval_fatal.2 envIDErr (fun _ _ => none) fp0 [pairB64]⟩

/-- C8: a secret whose data lacks the `"tls.crt"` key fails with the error
naming the secret and the missing field, and no records accompany the
error; a secret with the key hands exactly its bytes to the PEM decoder
and wraps each decoded certificate in a record with empty `userID` and
`yqMatchExpr`. -/
theorem C8_secret_missing_field (env : Env) (path : Str) (secret : KubeSecret) :
    (secret.lookup ("tls.crt".toList) = none →
      readAndParseKubeSecret env path secret =
        Except.error ("secret \"".toList ++ secret.name ++ "\" has no key \"tls.crt\"".toList)) ∧
    (∀ bytes, secret.lookup ("tls.crt".toList) = some bytes →
      readAndParseKubeSecret env path secret =
        (parsePEM env.parseCert bytes).map (fun certs =>
          certs.map (fun c => { cert := c, userID := [], yqMatchExpr := [] }))) := by
  constructor
  · intro h
    simp only [readAndParseKubeSecret, h]
  · intro bytes h
    simp only [readAndParseKubeSecret, h]
    cases parsePEM env.parseCert bytes with
    | error e => rfl
    | ok certs => rfl

/-- Witness for C8: `secretNo` (no `"tls.crt"` key) fails with the error
naming `"db-tls"` and the field; `secretYes` parses its `"tls.crt"`
payload. -/
theorem C8_secret_missing_field_witness :
    readAndParseKubeSecret envOK ("p".toList) secretNo =
      Except.error ("secret \"".toList ++ secretNo.name ++ "\" has no key \"tls.crt\"".toList) ∧
    readAndParseKubeSecret envOK ("p".toList) secretYes =
      (parsePEM envOK.parseCert [Chunk.block [3]]).map (fun certs =>
        certs.map (fun c => { cert := c, userID := [], yqMatchExpr := [] })) :=
  ⟨(C8_secret_missing_field envOK ("p".toList) secretNo).1 rfl,
    (C8_secret_missing_field envOK ("p".toList) secretYes).2 [Chunk.block [3]] rfl⟩

/-- C9: `certificateRef.parse` dispatches on the format tag with a
`switch` that has no `default` case, so a tag equal to none of the three
declared constants leaves the receiver unchanged (the `certificates`
field included) and returns the `nil` error — indistinguishable from a
successful empty read for a reference whose `certificates` field was
empty. -/
theorem C9_unknown_format_silent_noop (env : Env) (cert : certificateRef)
    (h1 : cert.format ≠ certificateFormatPEM)
    (h2 : cert.format ≠ certificateFormatYAML)
    (h3 : cert.format ≠ certificateFormatKubeSecret) :
    certificateRef.parse env cert = (cert, none) := by
  simp only [certificateRef.parse, if_neg h1, if_neg h2, if_neg h3]

/-- Witness for C9: the tag `3` is dispatched to no reader; `parse`
returns the reference unchanged with no error. -/
theorem C9_unknown_format_silent_noop_witness :
    certificateRef.parse envOK refUnknown = (refUnknown, none) :=
  C9_unknown_format_silent_noop envOK refUnknown (by decide) (by decide) (by decide)

end CertExporter
